import Mathlib

/-!
Verification development for the loose-quadtree SP-GiST operator class
(`contrib/loose_quadtree/_loose_quadtree.c`) and the quadrant page-split
algorithm (`src/backend/access/gist/gistsplit.c`).

Coordinates (C `double`) are modelled as rationals.  The fuzzy floating
point comparison macros `FPlt`/`FPle`/`FPgt`/`FPge` from PostgreSQL's
`geo_decls.h` are modelled exactly, with `EPSILON = 1.0E-06` as the
rational `1/1000000`.
-/

namespace LooseQuad

/-- `EPSILON` from geo_decls.h (`1.0E-06`). -/
def EPSILON : ℚ := 1 / 1000000

/-- `FPlt(A,B) = ((B) - (A) > EPSILON)` from geo_decls.h. -/
def FPlt (a b : ℚ) : Bool := decide (b - a > EPSILON)

/-- `FPle(A,B) = ((A) - (B) <= EPSILON)` from geo_decls.h. -/
def FPle (a b : ℚ) : Bool := decide (a - b ≤ EPSILON)

/-- `FPgt(A,B) = ((A) - (B) > EPSILON)` from geo_decls.h. -/
def FPgt (a b : ℚ) : Bool := decide (a - b > EPSILON)

/-- `FPge(A,B) = ((B) - (A) <= EPSILON)` from geo_decls.h. -/
def FPge (a b : ℚ) : Bool := decide (b - a ≤ EPSILON)

/-- A 2-D point (from geo_decls.h `Point`). -/
structure Point where
  x : ℚ
  y : ℚ
deriving DecidableEq, Repr

/-- A 2-D box with a low and a high corner (from geo_decls.h `BOX`). -/
structure BOX where
  low : Point
  high : Point
deriving DecidableEq, Repr

/-- `Range`: a one-dimensional `{low, high}` interval (_loose_quadtree.c). -/
structure Range where
  low : ℚ
  high : ℚ
deriving DecidableEq, Repr

/-- `RangeBox`: a pair of intervals, one per endpoint dimension of one
axis (_loose_quadtree.c). -/
structure RangeBox where
  left : Range
  right : Range
deriving DecidableEq, Repr

/-- `RectBox`: the 4-D traversal bounding region, one `RangeBox` per
original axis (_loose_quadtree.c). -/
structure RectBox where
  range_box_x : RangeBox
  range_box_y : RangeBox
deriving DecidableEq, Repr

/-- `getQuadrant` from _loose_quadtree.c: compare the candidate box's
centroid against the reference box's centroid; `>=` on y picks the
upper pair, `>=` on x picks the right member of the pair. -/
def getQuadrant (centroid inBox : BOX) : Nat :=
  let centroidX := centroid.low.x + (centroid.high.x - centroid.low.x) / 2
  let centroidY := centroid.low.y + (centroid.high.y - centroid.low.y) / 2
  let newCentroidX := inBox.low.x + (inBox.high.x - inBox.low.x) / 2
  let newCentroidY := inBox.low.y + (inBox.high.y - inBox.low.y) / 2
  if newCentroidY ≥ centroidY then
    if newCentroidX ≥ centroidX then 1 else 0
  else
    if newCentroidX ≥ centroidX then 3 else 2

/-- `getRangeBox` from _loose_quadtree.c: reinterpret a `BOX` as a
point in 4-D space. -/
def getRangeBox (box : BOX) : RangeBox :=
  { left := { low := box.low.x, high := box.high.x }
  , right := { low := box.low.y, high := box.high.y } }

/-- `nextRectBox` from _loose_quadtree.c: copy the parent's `RectBox`
and, for each of the four bits of `quadrant`, replace one side of the
corresponding interval with the centroid's matching bound. -/
def nextRectBox (rect_box : RectBox) (centroid : RangeBox) (quadrant : Nat) : RectBox :=
  { range_box_x :=
    { left :=
        if quadrant &&& 8 ≠ 0 then
          { low := centroid.left.low, high := rect_box.range_box_x.left.high }
        else
          { low := rect_box.range_box_x.left.low, high := centroid.left.low }
    , right :=
        if quadrant &&& 4 ≠ 0 then
          { low := centroid.left.high, high := rect_box.range_box_x.right.high }
        else
          { low := rect_box.range_box_x.right.low, high := centroid.left.high } }
  , range_box_y :=
    { left :=
        if quadrant &&& 2 ≠ 0 then
          { low := centroid.right.low, high := rect_box.range_box_y.left.high }
        else
          { low := rect_box.range_box_y.left.low, high := centroid.right.low }
    , right :=
        if quadrant &&& 1 ≠ 0 then
          { low := centroid.right.high, high := rect_box.range_box_y.right.high }
        else
          { low := rect_box.range_box_y.right.low, high := centroid.right.high } } }

/-- `overlap2D` from _loose_quadtree.c. -/
def overlap2D (range_box : RangeBox) (query : Range) : Bool :=
  FPge range_box.right.high query.low && FPle range_box.left.low query.high

/-- `overlap4D` from _loose_quadtree.c. -/
def overlap4D (rect_box : RectBox) (query : RangeBox) : Bool :=
  overlap2D rect_box.range_box_x query.left && overlap2D rect_box.range_box_y query.right

/-- `contain2D` from _loose_quadtree.c. -/
def contain2D (range_box : RangeBox) (query : Range) : Bool :=
  FPge range_box.right.high query.high && FPle range_box.left.low query.low

/-- `contain4D` from _loose_quadtree.c. -/
def contain4D (rect_box : RectBox) (query : RangeBox) : Bool :=
  contain2D rect_box.range_box_x query.left && contain2D rect_box.range_box_y query.right

/-- `contained2D` from _loose_quadtree.c. -/
def contained2D (range_box : RangeBox) (query : Range) : Bool :=
  FPle range_box.left.low query.high && FPge range_box.left.high query.low &&
  FPle range_box.right.low query.high && FPge range_box.right.high query.low

/-- `contained4D` from _loose_quadtree.c. -/
def contained4D (rect_box : RectBox) (query : RangeBox) : Bool :=
  contained2D rect_box.range_box_x query.left && contained2D rect_box.range_box_y query.right

/-- `lower2D` from _loose_quadtree.c. -/
def lower2D (range_box : RangeBox) (query : Range) : Bool :=
  FPlt range_box.left.low query.low && FPlt range_box.right.low query.low

/-- `overLower2D` from _loose_quadtree.c. -/
def overLower2D (range_box : RangeBox) (query : Range) : Bool :=
  FPle range_box.left.low query.high && FPle range_box.right.low query.high

/-- `higher2D` from _loose_quadtree.c. -/
def higher2D (range_box : RangeBox) (query : Range) : Bool :=
  FPgt range_box.left.high query.high && FPgt range_box.right.high query.high

/-- `overHigher2D` from _loose_quadtree.c. -/
def overHigher2D (range_box : RangeBox) (query : Range) : Bool :=
  FPge range_box.left.high query.low && FPge range_box.right.high query.low

/-- `left4D` from _loose_quadtree.c. -/
def left4D (rect_box : RectBox) (query : RangeBox) : Bool :=
  lower2D rect_box.range_box_x query.left

/-- `overLeft4D` from _loose_quadtree.c. -/
def overLeft4D (rect_box : RectBox) (query : RangeBox) : Bool :=
  overLower2D rect_box.range_box_x query.left

/-- `right4D` from _loose_quadtree.c. -/
def right4D (rect_box : RectBox) (query : RangeBox) : Bool :=
  higher2D rect_box.range_box_x query.left

/-- `overRight4D` from _loose_quadtree.c. -/
def overRight4D (rect_box : RectBox) (query : RangeBox) : Bool :=
  overHigher2D rect_box.range_box_x query.left

/-- `below4D` from _loose_quadtree.c. -/
def below4D (rect_box : RectBox) (query : RangeBox) : Bool :=
  lower2D rect_box.range_box_y query.right

/-- `overBelow4D` from _loose_quadtree.c. -/
def overBelow4D (rect_box : RectBox) (query : RangeBox) : Bool :=
  overLower2D rect_box.range_box_y query.right

/-- `above4D` from _loose_quadtree.c. -/
def above4D (rect_box : RectBox) (query : RangeBox) : Bool :=
  higher2D rect_box.range_box_y query.right

/-- `overAbove4D` from _loose_quadtree.c. -/
def overAbove4D (rect_box : RectBox) (query : RangeBox) : Bool :=
  overHigher2D rect_box.range_box_y query.right

/-- A box `b` is bounded by the traversal region `r` when each of its
four coordinates lies within the corresponding interval of `r` (this is
the invariant the traversal maintains for every box stored below the
region, see the header comment of _loose_quadtree.c). -/
def boundedBy4D (r : RectBox) (b : BOX) : Prop :=
  r.range_box_x.left.low ≤ b.low.x ∧ b.low.x ≤ r.range_box_x.left.high ∧
  r.range_box_x.right.low ≤ b.high.x ∧ b.high.x ≤ r.range_box_x.right.high ∧
  r.range_box_y.left.low ≤ b.low.y ∧ b.low.y ≤ r.range_box_y.left.high ∧
  r.range_box_y.right.low ≤ b.high.y ∧ b.high.y ≤ r.range_box_y.right.high

/-- Modelled from the spec: a box `b` "exactly overlaps the query box"
whose 4-D reinterpretation is `q` — the two x-intervals intersect and
the two y-intervals intersect (exact, epsilon-free comparison). -/
def boxExactOverlap (b : BOX) (q : RangeBox) : Prop :=
  b.low.x ≤ q.left.high ∧ q.left.low ≤ b.high.x ∧
  b.low.y ≤ q.right.high ∧ q.right.low ≤ b.high.y

/-- One interval is a sub-interval of another. -/
def Range.subRangeOf (inner outer : Range) : Prop :=
  outer.low ≤ inner.low ∧ inner.high ≤ outer.high

/-- A `RectBox` is contained in another on each of its 4 bound
components. -/
def rectBoxWithin (inner outer : RectBox) : Prop :=
  inner.range_box_x.left.subRangeOf outer.range_box_x.left ∧
  inner.range_box_x.right.subRangeOf outer.range_box_x.right ∧
  inner.range_box_y.left.subRangeOf outer.range_box_y.left ∧
  inner.range_box_y.right.subRangeOf outer.range_box_y.right

/-- The precondition documented at `nextRectBox` ("All centroids are
bounded by RectBox"): each of the centroid's four bounds lies within
the corresponding interval of the parent region. -/
def centroidBoundedBy (r : RectBox) (c : RangeBox) : Prop :=
  r.range_box_x.left.low ≤ c.left.low ∧ c.left.low ≤ r.range_box_x.left.high ∧
  r.range_box_x.right.low ≤ c.left.high ∧ c.left.high ≤ r.range_box_x.right.high ∧
  r.range_box_y.left.low ≤ c.right.low ∧ c.right.low ≤ r.range_box_y.left.high ∧
  r.range_box_y.right.low ≤ c.right.high ∧ c.right.high ≤ r.range_box_y.right.high

/-- C's `double` to `int` conversion: truncation toward zero. -/
def cTrunc (q : ℚ) : ℤ :=
  if 0 ≤ q then ⌊q⌋ else ⌈q⌉

/-- One iteration of the simulated-descent loop in
`spg_loose_quad_choose`: classify the inserted box against the current
simulated extent, then halve the extent into that quadrant's sub-box
(the midpoints are computed into C `int` variables, hence truncated).
Returns the new extent and the quadrant just computed. -/
def chooseStep (box currentBox : BOX) : BOX × Nat :=
  let currentQuadrant := getQuadrant currentBox box
  let middleX : ℚ := (cTrunc (currentBox.low.x + (currentBox.high.x - currentBox.low.x) / 2) : ℤ)
  let middleY : ℚ := (cTrunc (currentBox.low.y + (currentBox.high.y - currentBox.low.y) / 2) : ℤ)
  if currentQuadrant = 0 then
    ({ low := { x := currentBox.low.x, y := middleY }
     , high := { x := middleX, y := currentBox.high.y } }, currentQuadrant)
  else if currentQuadrant = 1 then
    ({ low := { x := middleX, y := middleY }, high := currentBox.high }, currentQuadrant)
  else if currentQuadrant = 2 then
    ({ low := currentBox.low, high := { x := middleX, y := middleY } }, currentQuadrant)
  else if currentQuadrant = 3 then
    ({ low := { x := middleX, y := currentBox.low.y }
     , high := { x := currentBox.high.x, y := middleY } }, currentQuadrant)
  else
    (currentBox, currentQuadrant)

/-- The simulated-descent loop of `spg_loose_quad_choose`, run for
`levelDifference` iterations starting from extent `currentBox` and the
initial value `currentQuadrant = 0` declared before the loop. -/
def chooseLoop (box : BOX) (currentBox : BOX) (currentQuadrant : Nat) :
    Nat → BOX × Nat
  | 0 => (currentBox, currentQuadrant)
  | n + 1 =>
      let s := chooseStep box currentBox
      chooseLoop box s.1 s.2 n

/-- The quadrant (`out->result.matchNode.nodeN`) computed by
`spg_loose_quad_choose` for a given centroid, inserted box and already
computed `levelDifference`: the loop starts from `currentBox` equal to
the centroid and `currentQuadrant = 0`. -/
def chooseNodeN (centroid box : BOX) (levelDifference : Nat) : Nat :=
  (chooseLoop box centroid 0 levelDifference).2

/-- Ascending sort of coordinate values, as `qsort` with
`compareDoubles` does in `spg_loose_quad_picksplit` (the comparator
orders ascending; the particular sorting algorithm is irrelevant). -/
def sortCoords (l : List ℚ) : List ℚ :=
  l.insertionSort (· ≤ ·)

/-- The centroid computation of `spg_loose_quad_picksplit`, with every
array access made total by returning `none` when an index is out of
bounds.  The four coordinate arrays have length `nTuples`; the C code
reads `highXs[in->nTuples]` and `highYs[in->nTuples]` inside the
`maxXY` comparison. -/
def picksplitCentroid (boxes : List BOX) : Option BOX := do
  let nTuples := boxes.length
  let lowXs := sortCoords (boxes.map fun b => b.low.x)
  let highXs := sortCoords (boxes.map fun b => b.high.x)
  let lowYs := sortCoords (boxes.map fun b => b.low.y)
  let highYs := sortCoords (boxes.map fun b => b.high.y)
  let lX0 ← lowXs[0]?
  let lY0 ← lowYs[0]?
  let minXY := if lX0 ≤ lY0 then lX0 else lY0
  let hXn ← highXs[nTuples]?
  let hYn ← highYs[nTuples]?
  let maxXY ← if hXn ≥ hYn then highXs[nTuples - 1]? else highYs[nTuples - 1]?
  pure { low := { x := minXY, y := minXY }, high := { x := maxXY, y := maxXY } }

/-- The twelve leaf-level box operators dispatched to by
`spg_loose_quad_leaf_consistent` (`box_overlap`, `box_contain`, ...).
They live in PostgreSQL's geo_ops.c, outside this repository, so they
are kept opaque. -/
structure BoxLeafOps where
  box_overlap : BOX → BOX → Bool
  box_contain : BOX → BOX → Bool
  box_contained : BOX → BOX → Bool
  box_same : BOX → BOX → Bool
  box_left : BOX → BOX → Bool
  box_overleft : BOX → BOX → Bool
  box_right : BOX → BOX → Bool
  box_overright : BOX → BOX → Bool
  box_above : BOX → BOX → Bool
  box_overabove : BOX → BOX → Bool
  box_below : BOX → BOX → Bool
  box_overbelow : BOX → BOX → Bool

/-- Whether an `Except` result is a success. -/
def exceptOk {ε α : Type} : Except ε α → Bool
  | Except.ok _ => true
  | Except.error _ => false

/-- The per-strategy region test of `spg_loose_quad_inner_consistent`
for one scan key: the `switch (strategy)` over the RT strategy numbers
of stratnum.h (1 = left, 2 = overleft, 3 = overlap, 4 = overright,
5 = right, 6 = same, 7 = contains, 8 = contained-by, 9 = overbelow,
10 = below, 11 = above, 12 = overabove), whose `default` arm raises
`elog(ERROR, "unrecognized strategy")`. -/
def innerConsistentTest (strategy : Nat) (next_rect_box : RectBox)
    (query : RangeBox) : Except String Bool :=
  match strategy with
  | 3 => Except.ok (overlap4D next_rect_box query)
  | 7 => Except.ok (contain4D next_rect_box query)
  | 6 => Except.ok (contained4D next_rect_box query)
  | 8 => Except.ok (contained4D next_rect_box query)
  | 1 => Except.ok (left4D next_rect_box query)
  | 2 => Except.ok (overLeft4D next_rect_box query)
  | 5 => Except.ok (right4D next_rect_box query)
  | 4 => Except.ok (overRight4D next_rect_box query)
  | 11 => Except.ok (above4D next_rect_box query)
  | 12 => Except.ok (overAbove4D next_rect_box query)
  | 10 => Except.ok (below4D next_rect_box query)
  | 9 => Except.ok (overBelow4D next_rect_box query)
  | _ => Except.error "unrecognized strategy"

/-- The per-strategy exact test of `spg_loose_quad_leaf_consistent` for
one scan key: the `switch (strategy)` dispatching to the box operators,
whose `default` arm raises `elog(ERROR, "unrecognized strategy")`. -/
def leafConsistentTest (ops : BoxLeafOps) (strategy : Nat)
    (leaf query : BOX) : Except String Bool :=
  match strategy with
  | 3 => Except.ok (ops.box_overlap leaf query)
  | 7 => Except.ok (ops.box_contain leaf query)
  | 8 => Except.ok (ops.box_contained leaf query)
  | 6 => Except.ok (ops.box_same leaf query)
  | 1 => Except.ok (ops.box_left leaf query)
  | 2 => Except.ok (ops.box_overleft leaf query)
  | 5 => Except.ok (ops.box_right leaf query)
  | 4 => Except.ok (ops.box_overright leaf query)
  | 11 => Except.ok (ops.box_above leaf query)
  | 12 => Except.ok (ops.box_overabove leaf query)
  | 10 => Except.ok (ops.box_below leaf query)
  | 9 => Except.ok (ops.box_overbelow leaf query)
  | _ => Except.error "unrecognized strategy"

end LooseQuad

namespace GistSplit

/-!
Embedding of gistsplit.c.  Entry positions are 1-based `OffsetNumber`s
(`FirstOffsetNumber = 1`, `InvalidOffsetNumber = 0`).  A tuple is a
list of per-column values, each `none` when the column is null; the
opaque key type is a type parameter.  The opclass picksplit function
(`giststate->picksplitFn[attno]`) is a parameter mapping the column
number and that column's values to a split vector.

In this source, `findDontCares`, `placeOne` and the whole don't-care
block of `gistUserPicksplit` are commented out, so `gistUserPicksplit`
always sets `v->spl_dontcare = NULL` and returns `false`; the
don't-care sub-split branch of `gistSplitByKey` is unreachable dead
code and is not part of the embedding's live semantics.

Union summaries are opaque datums built by pluggable union functions;
the embedding records each call of `gistunionsubkey` as an event, which
is what the claims about summary computation observe.
-/

/-- `GIST_SPLITVEC`: the four quadrant groups of entry positions (the
lengths `spl_nNW`..`spl_nSE` are the list lengths). -/
structure GIST_SPLITVEC where
  spl_NW : List Nat
  spl_NE : List Nat
  spl_SW : List Nat
  spl_SE : List Nat
deriving DecidableEq, Repr

/-- All positions assigned by a split vector, NW then NE then SW then
SE. -/
def GIST_SPLITVEC.allPositions (v : GIST_SPLITVEC) : List Nat :=
  v.spl_NW ++ v.spl_NE ++ v.spl_SW ++ v.spl_SE

/-- A call site of `gistunionsubkey` (the union-summary recomputation)
inside `gistSplitByKey`: either the call in the mixed-null branch or
the final multi-column recomputation at the end of the function. -/
inductive UnionSite where
  | mixedNull : UnionSite
  | finalRecompute : UnionSite
deriving DecidableEq, Repr

/-- The parts of `GistSplitVector` the claims observe: the split
vector, the four per-column null flags, and the trace of
`gistunionsubkey` calls. -/
structure SplitState where
  vec : GIST_SPLITVEC
  NWisnull : Nat → Bool
  NEisnull : Nat → Bool
  SWisnull : Nat → Bool
  SEisnull : Nat → Bool
  events : List UnionSite

/-- The state the outside caller hands to `gistSplitByKey`: the isnull
arrays are initialized to all-true (see the function's header
comment), no groups filled yet, no union computations done. -/
def initSplitState : SplitState :=
  { vec := { spl_NW := [], spl_NE := [], spl_SW := [], spl_SE := [] }
  , NWisnull := fun _ => true
  , NEisnull := fun _ => true
  , SWisnull := fun _ => true
  , SEisnull := fun _ => true
  , events := [] }

/-- One iteration of a loop that routes position `i` into the first of
the four groups whose guard holds (the common shape of the assignment
loops in gistsplit.c: `if (p1 i) ... else if (p2 i) ... else if (p3 i)
... else ...`). -/
def routeStep (p1 p2 p3 : Nat → Bool) (v : GIST_SPLITVEC) (i : Nat) : GIST_SPLITVEC :=
  if p1 i then { v with spl_NW := v.spl_NW ++ [i] }
  else if p2 i then { v with spl_NE := v.spl_NE ++ [i] }
  else if p3 i then { v with spl_SW := v.spl_SW ++ [i] }
  else { v with spl_SE := v.spl_SE ++ [i] }

/-- Route every position of `l`, in order, into the four groups. -/
def routeAll (p1 p2 p3 : Nat → Bool) (l : List Nat) : GIST_SPLITVEC :=
  l.foldl (routeStep p1 p2 p3) { spl_NW := [], spl_NE := [], spl_SW := [], spl_SE := [] }

/-- `gistSplitQuarters` from gistsplit.c: positions `1..len`, with
`i < len/4` to NW, else `i < len/2` to NE, else `i < 3*len/4` to SW,
else SE (C integer division). -/
def gistSplitQuarters (len : Nat) : GIST_SPLITVEC :=
  routeAll (fun i => decide (i < len / 4)) (fun i => decide (i < len / 2))
    (fun i => decide (i < 3 * len / 4)) (List.range' 1 len)

/-- The group assignment of `genericPickSplit` from gistsplit.c: with
`maxoff = entryvec->n - 1 = len`, positions `1..maxoff` with
`i <= len/4` to NW, else `i <= len/2` to NE, else `i <= 3*len/4` to
SW, else SE.  (The union datums it also builds are opaque.) -/
def genericPickSplit (len : Nat) : GIST_SPLITVEC :=
  routeAll (fun i => decide (i ≤ len / 4)) (fun i => decide (i ≤ len / 2))
    (fun i => decide (i ≤ 3 * len / 4)) (List.range' 1 len)

/-- The old-picksplit-API compatibility hack in `gistUserPicksplit`: if
the last entry of a group is `InvalidOffsetNumber` (0), replace it with
`entryvec->n - 1`, the true last global position `len`. -/
def normalizeLast (len : Nat) (g : List Nat) : List Nat :=
  if g.getLast? = some 0 then g.dropLast ++ [len] else g

/-- Whether a user picksplit result left at least one group empty
(`sv->spl_nNW == 0 || sv->spl_nNE == 0 || sv->spl_nSW == 0 ||
sv->spl_nSE == 0`). -/
def hasEmptyGroup (sv : GIST_SPLITVEC) : Bool :=
  sv.spl_NW.isEmpty || sv.spl_NE.isEmpty || sv.spl_SW.isEmpty || sv.spl_SE.isEmpty

/-- The split vector produced by `gistUserPicksplit` from gistsplit.c
when handed the user picksplit result `sv` for `len` entries: if any
group came back empty, complain (DEBUG1) and substitute
`genericPickSplit`; otherwise keep the user's assignment, normalizing a
trailing `InvalidOffsetNumber` sentinel in each group.  The function
always returns `false` in this source (its don't-care analysis is
commented out), so this split vector is final. -/
def gistUserPicksplit (len : Nat) (sv : GIST_SPLITVEC) : GIST_SPLITVEC :=
  if hasEmptyGroup sv then
    genericPickSplit len
  else
    { spl_NW := normalizeLast len sv.spl_NW
    , spl_NE := normalizeLast len sv.spl_NE
    , spl_SW := normalizeLast len sv.spl_SW
    , spl_SE := normalizeLast len sv.spl_SE }

/-- Whether column `attno` of the tuple at (1-based) position `i` of
`itup` is null (`index_getattr` returning `IsNull`). -/
def attIsNull {K : Type} (itup : List (List (Option K))) (attno i : Nat) : Bool :=
  ((itup.getD (i - 1) []).getD attno none).isNone

/-- `offNullTuples`: the positions `1..len` whose column `attno` is
null, in increasing order. -/
def nullOffsets {K : Type} (itup : List (List (Option K))) (attno : Nat) : List Nat :=
  (List.range' 1 itup.length).filter (attIsNull itup attno)

/-- The values of column `attno`, in position order (the non-null
branch hands exactly these to the user picksplit function). -/
def columnVals {K : Type} (itup : List (List (Option K))) (attno : Nat) : List K :=
  itup.filterMap fun e => e.getD attno none

/-- The split vector built by the mixed-null branch of
`gistSplitByKey`: nulls (in order) to NW; each non-null position `i`
to NE when `i % 3 == 0`, to SW when `i % 3 == 1`, else to SE. -/
def mixedNullVec {K : Type} (itup : List (List (Option K))) (attno : Nat) : GIST_SPLITVEC :=
  routeAll (attIsNull itup attno) (fun i => decide (i % 3 = 0)) (fun i => decide (i % 3 = 1))
    (List.range' 1 itup.length)

/-- Set the four per-column null flags for column `attno` to `b` (the
all-null branch of `gistSplitByKey` sets them `true`, the non-null
branch sets them `false` after the user picksplit). -/
def setNullFlags (attno : Nat) (b : Bool) (st : SplitState) : SplitState :=
  { st with
    NWisnull := Function.update st.NWisnull attno b
    NEisnull := Function.update st.NEisnull attno b
    SWisnull := Function.update st.SWisnull attno b
    SEisnull := Function.update st.SEisnull attno b }

/-- The union-summary computation at the end of the mixed-null branch:
`if (attno == 0 && giststate->tupdesc->natts == 1)` call
`gistunionsubkey`. -/
def mixedWrap (natts attno : Nat) (st : SplitState) : SplitState :=
  if attno = 0 ∧ natts = 1 then
    { st with events := st.events ++ [UnionSite.mixedNull] }
  else
    st

/-- The union-summary recomputation at the end of `gistSplitByKey`:
`if (attno == 0 && giststate->tupdesc->natts > 1)` call
`gistunionsubkey`. -/
def finalWrap (natts attno : Nat) (st : SplitState) : SplitState :=
  if attno = 0 ∧ 1 < natts then
    { st with events := st.events ++ [UnionSite.finalRecompute] }
  else
    st

/-- `gistSplitByKey` from gistsplit.c, on the observables of
`SplitState`.  `natts = giststate->tupdesc->natts`; `userPS` is the
opclass picksplit function for a column, fed that column's values.

All-null column: set the four null flags for `attno` and either recurse
on the next column or fall back to `gistSplitQuarters`.  Mixed nulls:
nulls to NW (flagged null), the rest by position mod 3, and compute
union summaries right here exactly when this is the top-level call of a
single-column index.  No nulls: run the user picksplit through
`gistUserPicksplit` (which never reports don't-cares in this source)
and clear the four null flags for `attno`.  Finally, the top-level call
of a multi-column index recomputes all union summaries. -/
def gistSplitByKey {K : Type} (natts : Nat) (userPS : Nat → List K → GIST_SPLITVEC)
    (itup : List (List (Option K))) (attno : Nat) (st : SplitState) : SplitState :=
  finalWrap natts attno
    (if (nullOffsets itup attno).length = itup.length then
      (if h : attno + 1 < natts then
        gistSplitByKey natts userPS itup (attno + 1) (setNullFlags attno true st)
      else
        { setNullFlags attno true st with vec := gistSplitQuarters itup.length })
    else if 0 < (nullOffsets itup attno).length then
      mixedWrap natts attno
        { st with
          vec := mixedNullVec itup attno
          NWisnull := Function.update st.NWisnull attno true }
    else
      { setNullFlags attno false st with
        vec := gistUserPicksplit itup.length (userPS attno (columnVals itup attno)) })
termination_by natts - attno
decreasing_by omega

theorem routeAll_foldl_NW (p1 p2 p3 : Nat → Bool) (l : List Nat) :
    ∀ v : GIST_SPLITVEC,
      (l.foldl (routeStep p1 p2 p3) v).spl_NW = v.spl_NW ++ l.filter p1 := by
  induction l with
  | nil => intro v; simp
  | cons a l ih =>
      intro v
      rw [List.foldl_cons, ih]
      by_cases h1 : p1 a <;> simp [routeStep, h1] <;>
        by_cases h2 : p2 a <;> simp [h2] <;>
          by_cases h3 : p3 a <;> simp [h3]

theorem routeAll_foldl_NE (p1 p2 p3 : Nat → Bool) (l : List Nat) :
    ∀ v : GIST_SPLITVEC,
      (l.foldl (routeStep p1 p2 p3) v).spl_NE =
        v.spl_NE ++ l.filter (fun i => !p1 i && p2 i) := by
  induction l with
  | nil => intro v; simp
  | cons a l ih =>
      intro v
      rw [List.foldl_cons, ih]
      by_cases h1 : p1 a <;> by_cases h2 : p2 a <;>
        simp [routeStep, h1, h2] <;>
          by_cases h3 : p3 a <;> simp [h3]

theorem routeAll_foldl_SW (p1 p2 p3 : Nat → Bool) (l : List Nat) :
    ∀ v : GIST_SPLITVEC,
      (l.foldl (routeStep p1 p2 p3) v).spl_SW =
        v.spl_SW ++ l.filter (fun i => !p1 i && (!p2 i && p3 i)) := by
  induction l with
  | nil => intro v; simp
  | cons a l ih =>
      intro v
      rw [List.foldl_cons, ih]
      by_cases h1 : p1 a <;> by_cases h2 : p2 a <;> by_cases h3 : p3 a <;>
        simp [routeStep, h1, h2, h3]

theorem routeAll_foldl_SE (p1 p2 p3 : Nat → Bool) (l : List Nat) :
    ∀ v : GIST_SPLITVEC,
      (l.foldl (routeStep p1 p2 p3) v).spl_SE =
        v.spl_SE ++ l.filter (fun i => !p1 i && (!p2 i && !p3 i)) := by
  induction l with
  | nil => intro v; simp
  | cons a l ih =>
      intro v
      rw [List.foldl_cons, ih]
      by_cases h1 : p1 a <;> by_cases h2 : p2 a <;> by_cases h3 : p3 a <;>
        simp [routeStep, h1, h2, h3]

theorem routeAll_NW (p1 p2 p3 : Nat → Bool) (l : List Nat) :
    (routeAll p1 p2 p3 l).spl_NW = l.filter p1 := by
  unfold routeAll; rw [routeAll_foldl_NW]; rfl

theorem routeAll_NE (p1 p2 p3 : Nat → Bool) (l : List Nat) :
    (routeAll p1 p2 p3 l).spl_NE = l.filter (fun i => !p1 i && p2 i) := by
  unfold routeAll; rw [routeAll_foldl_NE]; rfl

theorem routeAll_SW (p1 p2 p3 : Nat → Bool) (l : List Nat) :
    (routeAll p1 p2 p3 l).spl_SW = l.filter (fun i => !p1 i && (!p2 i && p3 i)) := by
  unfold routeAll; rw [routeAll_foldl_SW]; rfl

theorem routeAll_SE (p1 p2 p3 : Nat → Bool) (l : List Nat) :
    (routeAll p1 p2 p3 l).spl_SE = l.filter (fun i => !p1 i && (!p2 i && !p3 i)) := by
  unfold routeAll; rw [routeAll_foldl_SE]; rfl

theorem routeAll_perm (p1 p2 p3 : Nat → Bool) (l : List Nat) :
    ((routeAll p1 p2 p3 l).allPositions).Perm l := by
  unfold GIST_SPLITVEC.allPositions
  rw [routeAll_NW, routeAll_NE, routeAll_SW, routeAll_SE]
  have h2 : l.filter (fun i => !p1 i && p2 i) = (l.filter fun i => !p1 i).filter p2 := by
    rw [List.filter_filter]
    exact List.filter_congr fun a _ => by cases p1 a <;> cases p2 a <;> rfl
  have h3 : l.filter (fun i => !p1 i && (!p2 i && p3 i)) =
      ((l.filter fun i => !p1 i).filter fun i => !p2 i).filter p3 := by
    rw [List.filter_filter, List.filter_filter]
    exact List.filter_congr fun a _ => by
      cases p1 a <;> cases p2 a <;> cases p3 a <;> rfl
  have h4 : l.filter (fun i => !p1 i && (!p2 i && !p3 i)) =
      ((l.filter fun i => !p1 i).filter fun i => !p2 i).filter fun i => !p3 i := by
    rw [List.filter_filter, List.filter_filter]
    exact List.filter_congr fun a _ => by
      cases p1 a <;> cases p2 a <;> cases p3 a <;> rfl
  rw [h2, h3, h4]
  have hCD : (((l.filter fun i => !p1 i).filter fun i => !p2 i).filter p3 ++
      ((l.filter fun i => !p1 i).filter fun i => !p2 i).filter fun i => !p3 i).Perm
      ((l.filter fun i => !p1 i).filter fun i => !p2 i) :=
    List.filter_append_perm p3 _
  have hBCD : ((l.filter fun i => !p1 i).filter p2 ++
      (((l.filter fun i => !p1 i).filter fun i => !p2 i).filter p3 ++
        ((l.filter fun i => !p1 i).filter fun i => !p2 i).filter fun i => !p3 i)).Perm
      (l.filter fun i => !p1 i) :=
    (hCD.append_left _).trans (List.filter_append_perm p2 _)
  have hfull : (l.filter p1 ++
      ((l.filter fun i => !p1 i).filter p2 ++
        (((l.filter fun i => !p1 i).filter fun i => !p2 i).filter p3 ++
          ((l.filter fun i => !p1 i).filter fun i => !p2 i).filter fun i => !p3 i))).Perm l :=
    (hBCD.append_left _).trans (List.filter_append_perm p1 l)
  simpa [List.append_assoc] using hfull

theorem gistSplitQuarters_perm (len : Nat) :
    ((gistSplitQuarters len).allPositions).Perm (List.range' 1 len) :=
  routeAll_perm _ _ _ _

theorem genericPickSplit_perm (len : Nat) :
    ((genericPickSplit len).allPositions).Perm (List.range' 1 len) :=
  routeAll_perm _ _ _ _

theorem mixedNullVec_perm {K : Type} (itup : List (List (Option K))) (attno : Nat) :
    ((mixedNullVec itup attno).allPositions).Perm (List.range' 1 itup.length) :=
  routeAll_perm _ _ _ _

theorem normalizeLast_of_not_mem (len : Nat) {g : List Nat} (h : 0 ∉ g) :
    normalizeLast len g = g := by
  rw [normalizeLast, if_neg]
  intro hc
  obtain ⟨hne, heq⟩ := List.mem_getLast?_eq_getLast (Option.mem_def.mpr hc)
  exact h (by rw [heq]; exact List.getLast_mem hne)

theorem gistUserPicksplit_perm (len : Nat) (sv : GIST_SPLITVEC)
    (hsv : (sv.allPositions).Perm (List.range' 1 len)) :
    ((gistUserPicksplit len sv).allPositions).Perm (List.range' 1 len) := by
  unfold gistUserPicksplit
  by_cases he : hasEmptyGroup sv
  · rw [if_pos he]
    exact genericPickSplit_perm len
  · rw [if_neg he]
    have h0 : 0 ∉ sv.allPositions := by
      intro h
      have h1 := hsv.mem_iff.mp h
      rw [List.mem_range'_1] at h1
      omega
    have hNW : 0 ∉ sv.spl_NW := fun h =>
      h0 (by simp [GIST_SPLITVEC.allPositions, h])
    have hNE : 0 ∉ sv.spl_NE := fun h =>
      h0 (by simp [GIST_SPLITVEC.allPositions, h])
    have hSW : 0 ∉ sv.spl_SW := fun h =>
      h0 (by simp [GIST_SPLITVEC.allPositions, h])
    have hSE : 0 ∉ sv.spl_SE := fun h =>
      h0 (by simp [GIST_SPLITVEC.allPositions, h])
    show (normalizeLast len sv.spl_NW ++ normalizeLast len sv.spl_NE ++
      normalizeLast len sv.spl_SW ++ normalizeLast len sv.spl_SE).Perm _
    rw [normalizeLast_of_not_mem len hNW, normalizeLast_of_not_mem len hNE,
      normalizeLast_of_not_mem len hSW, normalizeLast_of_not_mem len hSE]
    exact hsv

theorem finalWrap_vec (natts attno : Nat) (st : SplitState) :
    (finalWrap natts attno st).vec = st.vec := by
  unfold finalWrap
  split <;> rfl

theorem mixedWrap_vec (natts attno : Nat) (st : SplitState) :
    (mixedWrap natts attno st).vec = st.vec := by
  unfold mixedWrap
  split <;> rfl

theorem gistSplitByKey_perm_aux {K : Type} (natts : Nat)
    (userPS : Nat → List K → GIST_SPLITVEC) (itup : List (List (Option K)))
    (hps : ∀ a, ((userPS a (columnVals itup a)).allPositions).Perm
      (List.range' 1 itup.length)) :
    ∀ (k attno : Nat) (st : SplitState), natts - attno = k →
      (((gistSplitByKey natts userPS itup attno st).vec).allPositions).Perm
        (List.range' 1 itup.length) := by
  intro k
  induction k using Nat.strong_induction_on with
  | _ k ih =>
    intro attno st hk
    rw [gistSplitByKey, finalWrap_vec]
    by_cases hAll : (nullOffsets itup attno).length = itup.length
    · rw [if_pos hAll]
      by_cases hRec : attno + 1 < natts
      · rw [dif_pos hRec]
        exact ih (natts - (attno + 1)) (by omega) (attno + 1) _ rfl
      · rw [dif_neg hRec]
        exact gistSplitQuarters_perm itup.length
    · rw [if_neg hAll]
      by_cases hMix : 0 < (nullOffsets itup attno).length
      · rw [if_pos hMix, mixedWrap_vec]
        exact mixedNullVec_perm itup attno
      · rw [if_neg hMix]
        exact gistUserPicksplit_perm itup.length _ (hps attno)

end GistSplit

namespace LooseQuad

/-- C1: Soundness of the region-level overlap test: for every `RectBox`
`R`, every query `RangeBox` `Q`, and every box `B` each of whose four
coordinates lies within the corresponding interval of `R`, if `B`
exactly overlaps the query box then `overlap4D R Q` returns true;
equivalently, `overlap4D` returning false guarantees that no box
bounded by `R` overlaps the query (no false negatives). -/
theorem overlap4D_sound (R : RectBox) (Q : RangeBox) (B : BOX)
    (hB : boundedBy4D R B) (hov : boxExactOverlap B Q) :
    overlap4D R Q = true := by
  obtain ⟨h1, h2, h3, h4, h5, h6, h7, h8⟩ := hB
  obtain ⟨o1, o2, o3, o4⟩ := hov
  have heps : (0 : ℚ) < EPSILON := by norm_num [EPSILON]
  simp only [overlap4D, overlap2D, FPge, FPle, Bool.and_eq_true, decide_eq_true_eq]
  refine ⟨⟨?_, ?_⟩, ?_, ?_⟩ <;> linarith

/-- Witness for C1 at a concrete region, query and box. -/
theorem overlap4D_sound_witness :
    boundedBy4D
      ⟨⟨⟨0, 10⟩, ⟨0, 10⟩⟩, ⟨⟨0, 10⟩, ⟨0, 10⟩⟩⟩ ⟨⟨1, 2⟩, ⟨3, 4⟩⟩ ∧
    boxExactOverlap ⟨⟨1, 2⟩, ⟨3, 4⟩⟩ ⟨⟨2, 5⟩, ⟨3, 6⟩⟩ ∧
    overlap4D ⟨⟨⟨0, 10⟩, ⟨0, 10⟩⟩, ⟨⟨0, 10⟩, ⟨0, 10⟩⟩⟩ ⟨⟨2, 5⟩, ⟨3, 6⟩⟩ = true :=
  ⟨by norm_num [boundedBy4D], by norm_num [boxExactOverlap],
    overlap4D_sound _ _ ⟨⟨1, 2⟩, ⟨3, 4⟩⟩
      (by norm_num [boundedBy4D]) (by norm_num [boxExactOverlap])⟩

/-- C2 counterexample: `nextRectBox` is not monotonically shrinking for
an arbitrary centroid.  With every interval of the parent equal to
`[0, 1]`, a centroid whose `left.low` bound is `2` and quadrant `0`,
the result's x-left interval becomes `[0, 2]`, which is not a
sub-interval of `[0, 1]`. -/
theorem nextRectBox_not_within :
    ¬ rectBoxWithin
      (nextRectBox ⟨⟨⟨0, 1⟩, ⟨0, 1⟩⟩, ⟨⟨0, 1⟩, ⟨0, 1⟩⟩⟩ ⟨⟨2, 0⟩, ⟨0, 0⟩⟩ 0)
      ⟨⟨⟨0, 1⟩, ⟨0, 1⟩⟩, ⟨⟨0, 1⟩, ⟨0, 1⟩⟩⟩ := by
  intro h
  obtain ⟨⟨_, hx⟩, _, _, _⟩ := h
  norm_num [nextRectBox] at hx

/-- C2 (amended): for every `RectBox` `R`, every quadrant `q`, and
every centroid whose four bounds lie within the corresponding
intervals of `R` (the precondition documented at `nextRectBox`: "All
centroids are bounded by RectBox"), the result of `nextRectBox R C q`
is contained within `R` on each of its 4 bound components. -/
theorem nextRectBox_within (R : RectBox) (C : RangeBox) (q : Nat)
    (hC : centroidBoundedBy R C) :
    rectBoxWithin (nextRectBox R C q) R := by
  obtain ⟨h1, h2, h3, h4, h5, h6, h7, h8⟩ := hC
  unfold nextRectBox rectBoxWithin Range.subRangeOf
  split_ifs <;> refine ⟨⟨?_, ?_⟩, ⟨?_, ?_⟩, ⟨?_, ?_⟩, ⟨?_, ?_⟩⟩ <;> simp [*]

/-- Witness for C2 (amended) at a concrete region, centroid and
quadrant. -/
theorem nextRectBox_within_witness :
    centroidBoundedBy ⟨⟨⟨0, 10⟩, ⟨0, 10⟩⟩, ⟨⟨0, 10⟩, ⟨0, 10⟩⟩⟩ ⟨⟨1, 2⟩, ⟨3, 4⟩⟩ ∧
    rectBoxWithin
      (nextRectBox ⟨⟨⟨0, 10⟩, ⟨0, 10⟩⟩, ⟨⟨0, 10⟩, ⟨0, 10⟩⟩⟩ ⟨⟨1, 2⟩, ⟨3, 4⟩⟩ 5)
      ⟨⟨⟨0, 10⟩, ⟨0, 10⟩⟩, ⟨⟨0, 10⟩, ⟨0, 10⟩⟩⟩ :=
  ⟨by norm_num [centroidBoundedBy],
    nextRectBox_within _ _ 5 (by norm_num [centroidBoundedBy])⟩

/-- C5: code bug in `spg_loose_quad_choose`.  With centroid box
`(0,0)-(10,10)` and inserted box `(6,6)-(8,8)`, when the computed
`levelAdd` is 0 the simulation loop does not run and the code returns
the initial value `currentQuadrant = 0` as `nodeN`, whereas the parent's
own classification `getQuadrant(centroid, box)` is quadrant 1. -/
theorem chooseNodeN_levelAdd_zero_bug :
    chooseNodeN ⟨⟨0, 0⟩, ⟨10, 10⟩⟩ ⟨⟨6, 6⟩, ⟨8, 8⟩⟩ 0 = 0 ∧
    getQuadrant ⟨⟨0, 0⟩, ⟨10, 10⟩⟩ ⟨⟨6, 6⟩, ⟨8, 8⟩⟩ = 1 := by
  constructor
  · rfl
  · norm_num [getQuadrant]

/-- C6: Quadrant totality and tie rule: `getQuadrant` always returns a
value in `{0, 1, 2, 3}`, and — ties on either centroid coordinate
resolving via `>=` toward the higher-indexed member of the pair — a
candidate identical to the reference is classified into quadrant 1
(upper-right). -/
theorem getQuadrant_total_and_tie (c b : BOX) :
    (getQuadrant c b = 0 ∨ getQuadrant c b = 1 ∨
      getQuadrant c b = 2 ∨ getQuadrant c b = 3) ∧
    getQuadrant b b = 1 := by
  constructor
  · simp only [getQuadrant]
    split_ifs <;> simp
  · simp only [getQuadrant]
    split_ifs with hy hx hx2
    · rfl
    · exact absurd le_rfl hx
    · exact absurd le_rfl hy
    · exact absurd le_rfl hy

/-- C8: Unrecognized predicate strategy is a fatal error: for every
strategy code outside the supported RT strategy numbers 1..12 (the
eleven predicates, with same/contained-by sharing a region test), both
the inner-consistent (region) evaluation and the leaf-consistent
(exact) evaluation take the `elog(ERROR, ...)` default branch, i.e.
return `Except.error`, and every supported code returns `Except.ok`. -/
theorem strategy_dispatch_errors (strategy : Nat) (rb : RectBox) (q : RangeBox)
    (ops : BoxLeafOps) (leaf query : BOX) :
    exceptOk (innerConsistentTest strategy rb q) =
      decide (1 ≤ strategy ∧ strategy ≤ 12) ∧
    exceptOk (leafConsistentTest ops strategy leaf query) =
      decide (1 ≤ strategy ∧ strategy ≤ 12) := by
  match strategy with
  | 0 => exact ⟨rfl, rfl⟩
  | 1 => exact ⟨rfl, rfl⟩
  | 2 => exact ⟨rfl, rfl⟩
  | 3 => exact ⟨rfl, rfl⟩
  | 4 => exact ⟨rfl, rfl⟩
  | 5 => exact ⟨rfl, rfl⟩
  | 6 => exact ⟨rfl, rfl⟩
  | 7 => exact ⟨rfl, rfl⟩
  | 8 => exact ⟨rfl, rfl⟩
  | 9 => exact ⟨rfl, rfl⟩
  | 10 => exact ⟨rfl, rfl⟩
  | 11 => exact ⟨rfl, rfl⟩
  | 12 => exact ⟨rfl, rfl⟩
  | n + 13 =>
      have hno : ¬ (1 ≤ n + 13 ∧ n + 13 ≤ 12) := by omega
      rw [decide_eq_false hno]
      exact ⟨rfl, rfl⟩

/-- C10: code bug in `spg_loose_quad_picksplit`: the `maxXY`
computation compares `highXs[in->nTuples]` with `highYs[in->nTuples]`,
reading one element past the end of both length-`nTuples` coordinate
arrays; in the total embedding, where an out-of-bounds read yields
`none`, the centroid computation therefore hits the out-of-bounds
branch on every input. -/
theorem picksplitCentroid_out_of_bounds (boxes : List BOX) :
    picksplitCentroid boxes = none := by
  have h : (sortCoords (boxes.map fun b => b.high.x))[boxes.length]? = none := by
    rw [List.getElem?_eq_none]
    simp [sortCoords, List.length_insertionSort]
  unfold picksplitCentroid
  cases e1 : (sortCoords (boxes.map fun b => b.low.x))[0]? <;>
    cases e2 : (sortCoords (boxes.map fun b => b.low.y))[0]? <;>
      simp [e1, e2, h, Option.bind]

end LooseQuad

namespace GistSplit

theorem finalWrap_NWisnull (natts attno : Nat) (st : SplitState) :
    (finalWrap natts attno st).NWisnull = st.NWisnull := by
  unfold finalWrap
  split <;> rfl

theorem mixedWrap_NWisnull (natts attno : Nat) (st : SplitState) :
    (mixedWrap natts attno st).NWisnull = st.NWisnull := by
  unfold mixedWrap
  split <;> rfl

theorem finalWrap_events (natts attno : Nat) (st : SplitState) :
    (finalWrap natts attno st).events =
      st.events ++ (if attno = 0 ∧ 1 < natts then [UnionSite.finalRecompute] else []) := by
  unfold finalWrap
  split <;> simp

theorem mixedWrap_events (natts attno : Nat) (st : SplitState) :
    (mixedWrap natts attno st).events =
      st.events ++ (if attno = 0 ∧ natts = 1 then [UnionSite.mixedNull] else []) := by
  unfold mixedWrap
  split <;> simp

theorem mixedNullVec_NE {K : Type} (itup : List (List (Option K))) (attno : Nat) :
    (mixedNullVec itup attno).spl_NE =
      (List.range' 1 itup.length).filter
        (fun i => !attIsNull itup attno i && decide (i % 3 = 0)) := by
  unfold mixedNullVec
  rw [routeAll_NE]

theorem mixedNullVec_SW {K : Type} (itup : List (List (Option K))) (attno : Nat) :
    (mixedNullVec itup attno).spl_SW =
      (List.range' 1 itup.length).filter
        (fun i => !attIsNull itup attno i && decide (i % 3 = 1)) := by
  unfold mixedNullVec
  rw [routeAll_SW]
  refine List.filter_congr fun i _ => ?_
  cases attIsNull itup attno i <;> by_cases h : i % 3 = 1 <;>
    simp [h] <;> omega

theorem mixedNullVec_SE {K : Type} (itup : List (List (Option K))) (attno : Nat) :
    (mixedNullVec itup attno).spl_SE =
      (List.range' 1 itup.length).filter
        (fun i => !attIsNull itup attno i && decide (i % 3 = 2)) := by
  unfold mixedNullVec
  rw [routeAll_SE]
  refine List.filter_congr fun i _ => ?_
  have h3 : i % 3 = 0 ∨ i % 3 = 1 ∨ i % 3 = 2 := by omega
  cases attIsNull itup attno i <;> rcases h3 with h | h | h <;> simp [h]

/-- C3: Split completeness: for every input of `N ≥ 2` entries and at
least one column, provided the opclass picksplit function fulfils its
interface contract of partitioning the positions `1..N`, the
`gistSplitByKey` entry point assigns every one of the `N` entry
positions to exactly one of the four output groups — no position lost,
none duplicated — through every reachable branch (all-null fallback
quartering, mixed-null routing, and user picksplit with its
generic-split fallback; the don't-care sub-split branch is unreachable
in this source because `gistUserPicksplit` always returns false). -/
theorem gistSplitByKey_complete {K : Type} (natts : Nat)
    (userPS : Nat → List K → GIST_SPLITVEC) (itup : List (List (Option K)))
    (hlen : 2 ≤ itup.length) (hnatts : 1 ≤ natts)
    (hps : ∀ a, ((userPS a (columnVals itup a)).allPositions).Perm
      (List.range' 1 itup.length)) :
    (((gistSplitByKey natts userPS itup 0 initSplitState).vec).allPositions).Perm
      (List.range' 1 itup.length) :=
  gistSplitByKey_perm_aux natts userPS itup hps natts 0 initSplitState rfl

/-- Witness for C3: two entries, one column, a user picksplit that puts
position 2 in NW and position 1 in NE. -/
theorem gistSplitByKey_complete_witness :
    (((gistSplitByKey 1 (fun _ _ => ⟨[2], [1], [], []⟩)
        ([[some 0], [some 0]] : List (List (Option Nat))) 0 initSplitState).vec).allPositions).Perm
      (List.range' 1 2) :=
  gistSplitByKey_complete 1 (fun _ _ => ⟨[2], [1], [], []⟩) [[some 0], [some 0]]
    (by decide) (by decide)
    (fun a => by
      show ((⟨[2], [1], [], []⟩ : GIST_SPLITVEC).allPositions).Perm (List.range' 1 2)
      decide)

/-- C4 counterexample: the fallback quarterings are not as claimed.
`genericPickSplit` on 5 entries puts only position 1 (not the first
`⌈5/4⌉ = 2` positions) into NW, and `gistSplitQuarters` on 4 entries
leaves NW empty. -/
theorem fallbackQuartering_counterexample :
    (genericPickSplit 5).spl_NW = [1] ∧ 2 ∉ (genericPickSplit 5).spl_NW ∧
    (gistSplitQuarters 4).spl_NW = [] := by
  refine ⟨by decide, by decide, by decide⟩

/-- C4 (amended): `genericPickSplit` on `N ≥ 4` entries yields four
non-empty groups, with positions `1..⌊N/4⌋` in NW,
`⌊N/4⌋+1..⌊N/2⌋` in NE, `⌊N/2⌋+1..⌊3N/4⌋` in SW and the rest in SE;
`gistSplitQuarters` (strict bounds: NW gets `1..⌊N/4⌋-1`) yields four
non-empty groups only for `N ≥ 8`. -/
theorem fallbackQuartering_amended (len : Nat) (h4 : 4 ≤ len) :
    ((genericPickSplit len).spl_NW ≠ [] ∧ (genericPickSplit len).spl_NE ≠ [] ∧
      (genericPickSplit len).spl_SW ≠ [] ∧ (genericPickSplit len).spl_SE ≠ []) ∧
    (∀ i, i ∈ (genericPickSplit len).spl_NW ↔ 1 ≤ i ∧ i ≤ len / 4) ∧
    (∀ i, i ∈ (genericPickSplit len).spl_NE ↔ len / 4 < i ∧ i ≤ len / 2) ∧
    (∀ i, i ∈ (genericPickSplit len).spl_SW ↔ len / 2 < i ∧ i ≤ 3 * len / 4) ∧
    (∀ i, i ∈ (genericPickSplit len).spl_SE ↔ 3 * len / 4 < i ∧ i ≤ len) ∧
    (8 ≤ len →
      (gistSplitQuarters len).spl_NW ≠ [] ∧ (gistSplitQuarters len).spl_NE ≠ [] ∧
      (gistSplitQuarters len).spl_SW ≠ [] ∧ (gistSplitQuarters len).spl_SE ≠ []) := by
  have memNW : ∀ i, i ∈ (genericPickSplit len).spl_NW ↔ 1 ≤ i ∧ i ≤ len / 4 := by
    intro i
    unfold genericPickSplit
    rw [routeAll_NW, List.mem_filter, List.mem_range'_1]
    simp only [decide_eq_true_eq]
    omega
  have memNE : ∀ i, i ∈ (genericPickSplit len).spl_NE ↔ len / 4 < i ∧ i ≤ len / 2 := by
    intro i
    unfold genericPickSplit
    rw [routeAll_NE, List.mem_filter, List.mem_range'_1]
    simp only [Bool.and_eq_true, Bool.not_eq_eq_eq_not, Bool.not_true, decide_eq_true_eq,
      decide_eq_false_iff_not]
    omega
  have memSW : ∀ i, i ∈ (genericPickSplit len).spl_SW ↔ len / 2 < i ∧ i ≤ 3 * len / 4 := by
    intro i
    unfold genericPickSplit
    rw [routeAll_SW, List.mem_filter, List.mem_range'_1]
    simp only [Bool.and_eq_true, Bool.not_eq_eq_eq_not, Bool.not_true, decide_eq_true_eq,
      decide_eq_false_iff_not]
    omega
  have memSE : ∀ i, i ∈ (genericPickSplit len).spl_SE ↔ 3 * len / 4 < i ∧ i ≤ len := by
    intro i
    unfold genericPickSplit
    rw [routeAll_SE, List.mem_filter, List.mem_range'_1]
    simp only [Bool.and_eq_true, Bool.not_eq_eq_eq_not, Bool.not_true, decide_eq_true_eq,
      decide_eq_false_iff_not]
    omega
  have memQNW : ∀ i, i ∈ (gistSplitQuarters len).spl_NW ↔ 1 ≤ i ∧ i < len / 4 := by
    intro i
    unfold gistSplitQuarters
    rw [routeAll_NW, List.mem_filter, List.mem_range'_1]
    simp only [decide_eq_true_eq]
    omega
  have memQNE : ∀ i, i ∈ (gistSplitQuarters len).spl_NE ↔ len / 4 ≤ i ∧ i < len / 2 := by
    intro i
    unfold gistSplitQuarters
    rw [routeAll_NE, List.mem_filter, List.mem_range'_1]
    simp only [Bool.and_eq_true, Bool.not_eq_eq_eq_not, Bool.not_true, decide_eq_true_eq,
      decide_eq_false_iff_not]
    omega
  have memQSW : ∀ i, i ∈ (gistSplitQuarters len).spl_SW ↔ len / 2 ≤ i ∧ i < 3 * len / 4 := by
    intro i
    unfold gistSplitQuarters
    rw [routeAll_SW, List.mem_filter, List.mem_range'_1]
    simp only [Bool.and_eq_true, Bool.not_eq_eq_eq_not, Bool.not_true, decide_eq_true_eq,
      decide_eq_false_iff_not]
    omega
  have memQSE : ∀ i, i ∈ (gistSplitQuarters len).spl_SE ↔ 3 * len / 4 ≤ i ∧ i ≤ len := by
    intro i
    unfold gistSplitQuarters
    rw [routeAll_SE, List.mem_filter, List.mem_range'_1]
    simp only [Bool.and_eq_true, Bool.not_eq_eq_eq_not, Bool.not_true, decide_eq_true_eq,
      decide_eq_false_iff_not]
    omega
  refine ⟨⟨?_, ?_, ?_, ?_⟩, memNW, memNE, memSW, memSE, fun h8 => ⟨?_, ?_, ?_, ?_⟩⟩
  · exact List.ne_nil_of_mem ((memNW 1).mpr (by omega))
  · exact List.ne_nil_of_mem ((memNE (len / 4 + 1)).mpr (by omega))
  · exact List.ne_nil_of_mem ((memSW (len / 2 + 1)).mpr (by omega))
  · exact List.ne_nil_of_mem ((memSE (3 * len / 4 + 1)).mpr (by omega))
  · exact List.ne_nil_of_mem ((memQNW 1).mpr (by omega))
  · exact List.ne_nil_of_mem ((memQNE (len / 4)).mpr (by omega))
  · exact List.ne_nil_of_mem ((memQSW (len / 2)).mpr (by omega))
  · exact List.ne_nil_of_mem ((memQSE (3 * len / 4)).mpr (by omega))

/-- Witness for C4 (amended) at `len = 8`. -/
theorem fallbackQuartering_amended_witness :
    (4 ≤ 8) ∧
    ((genericPickSplit 8).spl_NW ≠ [] ∧ (genericPickSplit 8).spl_NE ≠ [] ∧
      (genericPickSplit 8).spl_SW ≠ [] ∧ (genericPickSplit 8).spl_SE ≠ []) ∧
    ((gistSplitQuarters 8).spl_NW ≠ [] ∧ (gistSplitQuarters 8).spl_NE ≠ [] ∧
      (gistSplitQuarters 8).spl_SW ≠ [] ∧ (gistSplitQuarters 8).spl_SE ≠ []) :=
  ⟨by decide, (fallbackQuartering_amended 8 (by decide)).1,
    (fallbackQuartering_amended 8 (by decide)).2.2.2.2.2 (by decide)⟩

/-- C7: Mixed-null routing policy: whenever column `attno` is null for
some but not all entries, `gistSplitByKey` routes every null position
into NW (marking NW null for that column), routes every non-null
position `i` into NE, SW or SE according to `i % 3` (0, 1, 2
respectively) without descending further for this column, and records
a union-summary computation in this branch exactly when it is the
top-level call of a single-column index. -/
theorem gistSplitByKey_mixed_null {K : Type} (natts attno : Nat)
    (userPS : Nat → List K → GIST_SPLITVEC) (itup : List (List (Option K)))
    (st : SplitState)
    (hsome : 0 < (nullOffsets itup attno).length)
    (hnotall : (nullOffsets itup attno).length < itup.length)
    (hev : UnionSite.mixedNull ∉ st.events) :
    (gistSplitByKey natts userPS itup attno st).vec.spl_NW = nullOffsets itup attno ∧
    (gistSplitByKey natts userPS itup attno st).vec.spl_NE =
      (List.range' 1 itup.length).filter
        (fun i => !attIsNull itup attno i && decide (i % 3 = 0)) ∧
    (gistSplitByKey natts userPS itup attno st).vec.spl_SW =
      (List.range' 1 itup.length).filter
        (fun i => !attIsNull itup attno i && decide (i % 3 = 1)) ∧
    (gistSplitByKey natts userPS itup attno st).vec.spl_SE =
      (List.range' 1 itup.length).filter
        (fun i => !attIsNull itup attno i && decide (i % 3 = 2)) ∧
    (gistSplitByKey natts userPS itup attno st).NWisnull attno = true ∧
    (UnionSite.mixedNull ∈ (gistSplitByKey natts userPS itup attno st).events ↔
      attno = 0 ∧ natts = 1) := by
  have hAll : ¬ (nullOffsets itup attno).length = itup.length := by omega
  rw [gistSplitByKey]
  rw [if_neg hAll, if_pos hsome]
  refine ⟨?_, ?_, ?_, ?_, ?_, ?_⟩
  · rw [finalWrap_vec, mixedWrap_vec]
    show (mixedNullVec itup attno).spl_NW = _
    unfold mixedNullVec
    rw [routeAll_NW]
    rfl
  · rw [finalWrap_vec, mixedWrap_vec]
    exact mixedNullVec_NE itup attno
  · rw [finalWrap_vec, mixedWrap_vec]
    exact mixedNullVec_SW itup attno
  · rw [finalWrap_vec, mixedWrap_vec]
    exact mixedNullVec_SE itup attno
  · rw [finalWrap_NWisnull, mixedWrap_NWisnull]
    exact Function.update_same attno true st.NWisnull
  · rw [finalWrap_events, mixedWrap_events]
    by_cases hMix : attno = 0 ∧ natts = 1 <;>
      by_cases hFin : attno = 0 ∧ 1 < natts <;>
        simp [hMix, hFin, hev] <;> omega

/-- Witness for C7: one column, entries `[some 0]` and `[null]` — the
null position 2 goes to NW, position 1 (`1 % 3 = 1`) to SW, NW is
flagged null, and the union summaries are computed in the branch. -/
theorem gistSplitByKey_mixed_null_witness :
    (gistSplitByKey 1 (fun _ _ => ⟨[], [], [], []⟩)
      ([[some 0], [none]] : List (List (Option Nat))) 0 initSplitState).vec.spl_NW =
        nullOffsets ([[some 0], [none]] : List (List (Option Nat))) 0 ∧
    (gistSplitByKey 1 (fun _ _ => ⟨[], [], [], []⟩)
      ([[some 0], [none]] : List (List (Option Nat))) 0 initSplitState).vec.spl_NE =
      (List.range' 1 2).filter
        (fun i => !attIsNull ([[some 0], [none]] : List (List (Option Nat))) 0 i &&
          decide (i % 3 = 0)) ∧
    (gistSplitByKey 1 (fun _ _ => ⟨[], [], [], []⟩)
      ([[some 0], [none]] : List (List (Option Nat))) 0 initSplitState).vec.spl_SW =
      (List.range' 1 2).filter
        (fun i => !attIsNull ([[some 0], [none]] : List (List (Option Nat))) 0 i &&
          decide (i % 3 = 1)) ∧
    (gistSplitByKey 1 (fun _ _ => ⟨[], [], [], []⟩)
      ([[some 0], [none]] : List (List (Option Nat))) 0 initSplitState).vec.spl_SE =
      (List.range' 1 2).filter
        (fun i => !attIsNull ([[some 0], [none]] : List (List (Option Nat))) 0 i &&
          decide (i % 3 = 2)) ∧
    (gistSplitByKey 1 (fun _ _ => ⟨[], [], [], []⟩)
      ([[some 0], [none]] : List (List (Option Nat))) 0 initSplitState).NWisnull 0 = true ∧
    (UnionSite.mixedNull ∈ (gistSplitByKey 1 (fun _ _ => ⟨[], [], [], []⟩)
      ([[some 0], [none]] : List (List (Option Nat))) 0 initSplitState).events ↔
      (0 = 0 ∧ 1 = 1)) :=
  gistSplitByKey_mixed_null 1 0 (fun _ _ => ⟨[], [], [], []⟩) [[some 0], [none]]
    initSplitState (by decide) (by decide) (by simp [initSplitState])

/-- C9: Recoverable degeneracy of the pluggable split primitive: on an
all-non-null input, if the opclass picksplit result leaves at least one
group empty, `gistSplitByKey` (via `gistUserPicksplit`) substitutes the
deterministic fallback `genericPickSplit`, which still partitions all
positions, and the split never aborts; if all four groups are
non-empty the user assignment is kept, with a trailing
`InvalidOffsetNumber` sentinel in each group normalized to the true
last global position. -/
theorem gistSplitByKey_user_fallback {K : Type} (natts : Nat)
    (userPS : Nat → List K → GIST_SPLITVEC) (itup : List (List (Option K)))
    (st : SplitState)
    (hnonull : (nullOffsets itup 0).length = 0)
    (hlen : 0 < itup.length) :
    (hasEmptyGroup (userPS 0 (columnVals itup 0)) = true →
      (gistSplitByKey natts userPS itup 0 st).vec = genericPickSplit itup.length ∧
      ((genericPickSplit itup.length).allPositions).Perm (List.range' 1 itup.length)) ∧
    (hasEmptyGroup (userPS 0 (columnVals itup 0)) = false →
      (gistSplitByKey natts userPS itup 0 st).vec =
        { spl_NW := normalizeLast itup.length (userPS 0 (columnVals itup 0)).spl_NW
        , spl_NE := normalizeLast itup.length (userPS 0 (columnVals itup 0)).spl_NE
        , spl_SW := normalizeLast itup.length (userPS 0 (columnVals itup 0)).spl_SW
        , spl_SE := normalizeLast itup.length (userPS 0 (columnVals itup 0)).spl_SE }) := by
  have hAll : ¬ (nullOffsets itup 0).length = itup.length := by omega
  have hMix : ¬ 0 < (nullOffsets itup 0).length := by omega
  rw [gistSplitByKey, if_neg hAll, if_neg hMix, finalWrap_vec]
  constructor
  · intro hEmpty
    refine ⟨?_, genericPickSplit_perm itup.length⟩
    show gistUserPicksplit itup.length _ = _
    unfold gistUserPicksplit
    rw [if_pos hEmpty]
  · intro hFull
    show gistUserPicksplit itup.length _ = _
    unfold gistUserPicksplit
    rw [if_neg (by simp [hFull])]

/-- Witness for C9: two all-non-null entries and a user picksplit that
returns four empty groups — the generic fallback is substituted. -/
theorem gistSplitByKey_user_fallback_witness :
    (gistSplitByKey 1 (fun _ _ => ⟨[], [], [], []⟩)
        ([[some 0], [some 0]] : List (List (Option Nat))) 0 initSplitState).vec =
      genericPickSplit 2 ∧
    ((genericPickSplit 2).allPositions).Perm (List.range' 1 2) :=
  (gistSplitByKey_user_fallback 1 (fun _ _ => ⟨[], [], [], []⟩) [[some 0], [some 0]]
    initSplitState (by decide) (by decide)).1 rfl

end GistSplit
